import Mathlib

/-
Verification of the invoice-cleaning pipeline and the metrics API of this
repository against its specification.

Shallow embedding conventions:
  * A pandas DataFrame of invoices becomes `Table := List Row`, a typed row
    per record, with `Option` encoding NaN/NaT cells (the columns carry the
    dtypes that `load_csv` coerces them to: numeric amounts/days, object
    strings, object date cells).
  * Python strings are `Str := List Char`; `.upper()` is modelled on ASCII.
  * `pandas.to_datetime` applied to a raw text cell is an abstract parse
    function `ParseF : Str → Option Date` passed as an explicit parameter;
    applied to an already-parsed date it is the identity, and to a missing
    cell it yields the null-date marker. Calendar dates are triples and day
    arithmetic goes through the standard civil-calendar day number.
  * Rationals stand in for the float amounts; NaN-propagating comparisons of
    pandas (`NaN > x` is false, `NaN != y` is true) are modelled explicitly
    on `Option` values.
-/

abbrev Str := List Char

/- ── Python string helpers (ASCII model of str.upper / replace) ── -/

def asciiUpper (c : Char) : Char :=
  if 97 ≤ c.toNat ∧ c.toNat ≤ 122 then Char.ofNat (c.toNat - 32) else c

def upperStr (s : Str) : Str := s.map asciiUpper

def despace (s : Str) : Str := s.filter (fun c => c ≠ ' ')

def deslash (s : Str) : Str := s.map (fun c => if c = '/' then '-' else c)

/- The composite transform applied by the reference rule to a present value:
   `ref.upper().replace(" ", "").replace("/", "-")`. -/
def refTransform (s : Str) : Str := deslash (despace (upperStr s))

def isDigit (c : Char) : Bool := 48 ≤ c.toNat && c.toNat ≤ 57

/- `^\d{4}-\d+$` : four digits, a hyphen, one or more digits. -/
def refMatch : Str → Bool
  | a :: b :: c :: d :: '-' :: rest =>
      isDigit a && isDigit b && isDigit c && isDigit d &&
      !rest.isEmpty && rest.all isDigit
  | _ => false

/- `work[COL_REF].str.match(INV_REF_PATTERN, na=False)` : missing is False. -/
def refMatchOpt : Option Str → Bool
  | none => false
  | some s => refMatch s

/- ── Calendar dates ── -/

structure Date where
  year : Int
  month : Nat
  day : Nat
  deriving DecidableEq, Repr

/- Day number of a civil date (Hinnant's days_from_civil), the day count that
   pandas timestamp subtraction `.dt.days` is based on. -/
def toEpochDay (dt : Date) : Int :=
  let m : Int := dt.month
  let y : Int := if m ≤ 2 then dt.year - 1 else dt.year
  let era : Int := (if 0 ≤ y then y else y - 399) / 400
  let yoe : Int := y - era * 400
  let mp : Int := (m + 9) % 12
  let doy : Int := (153 * mp + 2) / 5 + (dt.day : Int) - 1
  let doe : Int := yoe * 365 + yoe / 4 - yoe / 100 + doy
  era * 146097 + doe - 719468

/- A date-column cell: raw CSV text, a parsed calendar date, or NaN/NaT. -/
inductive DCell where
  | str (s : Str)
  | date (d : Date)
  | na
  deriving DecidableEq, Repr

def DCell.isNa : DCell → Bool
  | .na => true
  | _ => false

/- The parse behaviour of `pandas.to_datetime(·, errors="coerce")` on raw
   text, abstracted as a parameter of the pipeline. -/
abbrev ParseF := Str → Option Date

/- `pd.to_datetime(cell, errors="coerce")` on one cell: text goes through the
   permissive parser, an already-parsed date is returned as is, missing stays
   missing (NaT). -/
def toDatetime (pf : ParseF) : DCell → Option Date
  | .str s => pf s
  | .date d => some d
  | .na => none

/- ── The invoice table (typed model of the DataFrame) ── -/

structure Row where
  client : Option Int            -- "Client Name" (numeric in this dataset)
  ref : Option Str               -- "Invoice Reference"
  dateInvoiced : DCell           -- "Date Invoiced"
  datePaid : DCell               -- "Date Paid"
  invoiceAmount : Option ℚ       -- "Invoice Amount"
  paidAmount : Option ℚ          -- "Paid Amount"
  days : Option ℚ                -- "No. Days taken to Pay"
  deriving DecidableEq, Repr

abbrev Table := List Row

/- `row.isna().any()` over the seven columns. -/
def Row.anyNa (r : Row) : Bool :=
  r.client.isNone || r.ref.isNone || r.dateInvoiced.isNa || r.datePaid.isNa ||
  r.invoiceAmount.isNone || r.paidAmount.isNone || r.days.isNone

/- pandas `a > b` on two possibly-NaN cells: false when either is NaN. -/
def ogt (a b : Option ℚ) : Bool :=
  match a, b with
  | some x, some y => decide (y < x)
  | _, _ => false

/- pandas `a != b` on two possibly-NaN cells: true when either is NaN
   (NaN compares unequal to everything, including NaN). -/
def neqNaN (a b : Option ℚ) : Bool :=
  match a, b with
  | some x, some y => decide (x ≠ y)
  | _, _ => true

/- ── Rule 1: fix_invoice_reference ── -/

/- `_fix`: falsy ("" ) or missing values pass through, otherwise uppercase,
   remove spaces, replace '/' with '-'. -/
def fixRefCell : Option Str → Option Str
  | none => none
  | some s => if s.isEmpty then some s else some (refTransform s)

/- `work[COL_REF] = work[COL_REF].apply(_fix)` on one row. -/
def refRow (r : Row) : Row := { r with ref := fixRefCell r.ref }

def fix_invoice_reference (t : Table) : Table × Table :=
  let work := t.map refRow
  let bad_rows := work.filter (fun r => !refMatchOpt r.ref)
  (work, bad_rows)

/- ── Rule 2: fix_dates ── -/

/- `work[c] = ser.dt.date` : parsed values become date cells, NaT becomes a
   missing cell. -/
def normCell : Option Date → DCell
  | some d => .date d
  | none => .na

/- Per-row effect of the per-column loop body of `fix_dates` on each of the
   two date columns. -/
def datesRowI (pf : ParseF) (r : Row) : Row :=
  { r with dateInvoiced := normCell (toDatetime pf r.dateInvoiced) }

def datesRowP (pf : ParseF) (r : Row) : Row :=
  { r with datePaid := normCell (toDatetime pf r.datePaid) }

def fix_dates (pf : ParseF) (t : Table) : Table × (Table × Table) :=
  let serI := t.map (fun r => toDatetime pf r.dateInvoiced)
  let badI := ((t.zip serI).filter (fun rc => rc.2.isNone)).map (·.1)
  let w1 := (t.zip serI).map (fun rc => { rc.1 with dateInvoiced := normCell rc.2 })
  let serP := w1.map (fun r => toDatetime pf r.datePaid)
  let badP := ((w1.zip serP).filter (fun rc => rc.2.isNone)).map (·.1)
  let w2 := (w1.zip serP).map (fun rc => { rc.1 with datePaid := normCell rc.2 })
  (w2, (badI, badP))

/- ── Rule 3: recalc_days_to_pay ── -/

/- `(paid_dates - invoice_dates).dt.days` on one row's cells. -/
def computedDays (pf : ParseF) (r : Row) : Option ℚ :=
  match toDatetime pf r.datePaid, toDatetime pf r.dateInvoiced with
  | some p, some i => some ((toEpochDay p - toEpochDay i : Int) : ℚ)
  | _, _ => none

/- Per-row effect of the unconditional overwrite `work[COL_DAYS] = computed`. -/
def recalcRow (pf : ParseF) (r : Row) : Row := { r with days := computedDays pf r }

def recalc_days_to_pay (pf : ParseF) (t : Table) : Table × Table :=
  let computed := t.map (computedDays pf)
  let mismatch := ((t.zip computed).filter (fun rc => neqNaN rc.2 rc.1.days)).map (·.1)
  let work := (t.zip computed).map (fun rc => { rc.1 with days := rc.2 })
  (work, mismatch)

/- ── Rule 4: fix_paid_vs_invoice ── -/

/- `work.loc[mask, COL_PAID_AMT] = work.loc[mask, COL_INV_AMT]` on one row. -/
def clipMask (r : Row) : Bool := ogt r.paidAmount r.invoiceAmount

def clipRow (r : Row) : Row :=
  if clipMask r then { r with paidAmount := r.invoiceAmount } else r

def fix_paid_vs_invoice (t : Table) : Table × Table :=
  let flagged := t.filter clipMask
  let work := t.map clipRow
  (work, flagged)

/- ── Rule 5: fill_missing ── -/

/- A missing cell of an object date column is filled with the empty string. -/
def fillD : DCell → DCell
  | .na => .str []
  | c => c

/- Per-row effect of the column-wise `fillna`: numeric NaN -> 0,
   string NaN -> "". -/
def fillRow (r : Row) : Row :=
  { client := some (r.client.getD 0)
    ref := some (r.ref.getD [])
    dateInvoiced := fillD r.dateInvoiced
    datePaid := fillD r.datePaid
    invoiceAmount := some (r.invoiceAmount.getD 0)
    paidAmount := some (r.paidAmount.getD 0)
    days := some (r.days.getD 0) }

def fill_missing (t : Table) : Table × Table :=
  let missing_rows := t.filter (fun r => r.anyNa)
  let work := t.map fillRow
  (work, missing_rows)

/- ── Orchestrator: clean_and_validate (DataFrame branch) ── -/

structure Report where
  invoice_reference_fixed : Table
  date_format_fixed_invoiced : Table
  date_format_fixed_paid : Table
  days_to_pay_fixed : Table
  paid_gt_invoice_clipped : Table
  missing_values_filled : Table
  deriving DecidableEq, Repr

def clean_and_validate (pf : ParseF) (t : Table) : Table × Report :=
  let p1 := fix_invoice_reference t
  let p2 := fix_dates pf p1.1
  let p3 := recalc_days_to_pay pf p2.1
  let p4 := fix_paid_vs_invoice p3.1
  let p5 := fill_missing p4.1
  (p5.1, ⟨p1.2, p2.2.1, p2.2.2, p3.2, p4.2, p5.2⟩)

/- ── Structural lemmas: each pass acts row by row ── -/

lemma zip_map_self (f : α → β) (t : List α) :
    t.zip (t.map f) = t.map (fun r => (r, f r)) := by
  induction t with
  | nil => rfl
  | cons a l ih =>
    show (a, f a) :: l.zip (l.map f) = _
    rw [ih]
    rfl

/- Assigning a recomputed series back into the frame acts row by row. -/
lemma map_zip_series (f : α → β) (g : α × β → γ) (t : List α) :
    ((t.zip (t.map f)).map g) = t.map fun r => g (r, f r) := by
  induction t with
  | nil => rfl
  | cons a l ih =>
    show g (a, f a) :: ((l.zip (l.map f)).map g) = _
    rw [ih]
    rfl

/- Selecting the frame's rows along a recomputed series acts row by row. -/
lemma filter_zip_series (f : α → β) (p : α × β → Bool) (t : List α) :
    (((t.zip (t.map f)).filter p).map (·.1)) = t.filter fun r => p (r, f r) := by
  induction t with
  | nil => rfl
  | cons a l ih =>
    show ((((a, f a) :: l.zip (l.map f)).filter p).map (·.1)) = _
    by_cases h : p (a, f a) <;> simp [List.filter_cons, h, ih]

lemma fix_dates_fst (pf : ParseF) (t : Table) :
    (fix_dates pf t).1 = t.map (fun r => datesRowP pf (datesRowI pf r)) := by
  simp only [fix_dates]
  rw [map_zip_series, map_zip_series, List.map_map]
  rfl

lemma fix_dates_badI (pf : ParseF) (t : Table) :
    (fix_dates pf t).2.1 = t.filter (fun r => (toDatetime pf r.dateInvoiced).isNone) := by
  simp only [fix_dates]
  rw [filter_zip_series]

lemma fix_dates_badP (pf : ParseF) (t : Table) :
    (fix_dates pf t).2.2
      = (t.filter (fun r => (toDatetime pf r.datePaid).isNone)).map (datesRowI pf) := by
  simp only [fix_dates]
  rw [map_zip_series, filter_zip_series, List.filter_map]
  rfl

lemma recalc_fst (pf : ParseF) (t : Table) :
    (recalc_days_to_pay pf t).1 = t.map (recalcRow pf) := by
  simp only [recalc_days_to_pay]
  rw [map_zip_series]
  rfl

lemma recalc_snd (pf : ParseF) (t : Table) :
    (recalc_days_to_pay pf t).2
      = t.filter (fun r => neqNaN (computedDays pf r) r.days) := by
  simp only [recalc_days_to_pay]
  rw [filter_zip_series]

/- The whole-row effect of one run of the pipeline. -/
def cleanRow (pf : ParseF) (r : Row) : Row :=
  fillRow (clipRow (recalcRow pf (datesRowP pf (datesRowI pf (refRow r)))))

lemma clean_fst (pf : ParseF) (t : Table) :
    (clean_and_validate pf t).1 = t.map (cleanRow pf) := by
  simp only [clean_and_validate, fill_missing, fix_paid_vs_invoice, recalc_fst,
    fix_dates_fst, fix_invoice_reference, List.map_map]
  rfl

/- ── Row-level characterization of one full pipeline run ── -/

lemma toDatetime_normCell (pf : ParseF) (o : Option Date) :
    toDatetime pf (normCell o) = o := by
  cases o <;> rfl

/- The recompute rule parses the date columns itself; after `fix_dates` has
   normalised them, it recovers exactly the same parse results. -/
lemma computedDays_stage (pf : ParseF) (r : Row) :
    computedDays pf (datesRowP pf (datesRowI pf (refRow r))) = computedDays pf r := by
  unfold computedDays datesRowP datesRowI refRow
  rw [toDatetime_normCell]
  cases h : toDatetime pf r.datePaid <;> simp [toDatetime_normCell]

lemma clipRow_invoiceAmount (r : Row) : (clipRow r).invoiceAmount = r.invoiceAmount := by
  unfold clipRow
  split <;> rfl

lemma clipRow_paidAmount (r : Row) :
    (clipRow r).paidAmount = if ogt r.paidAmount r.invoiceAmount then r.invoiceAmount else r.paidAmount := by
  unfold clipRow clipMask
  split <;> simp_all

lemma clipRow_days (r : Row) : (clipRow r).days = r.days := by
  unfold clipRow
  split <;> rfl

lemma clipRow_ref (r : Row) : (clipRow r).ref = r.ref := by
  unfold clipRow
  split <;> rfl

lemma cleanRow_invoiceAmount (pf : ParseF) (r : Row) :
    (cleanRow pf r).invoiceAmount = some (r.invoiceAmount.getD 0) := by
  unfold cleanRow fillRow
  rw [clipRow_invoiceAmount]
  rfl

lemma cleanRow_paidAmount (pf : ParseF) (r : Row) :
    (cleanRow pf r).paidAmount
      = some ((if ogt r.paidAmount r.invoiceAmount then r.invoiceAmount else r.paidAmount).getD 0) := by
  unfold cleanRow fillRow
  rw [clipRow_paidAmount]
  rfl

lemma cleanRow_days (pf : ParseF) (r : Row) :
    (cleanRow pf r).days = some ((computedDays pf r).getD 0) := by
  unfold cleanRow fillRow
  rw [clipRow_days]
  show some ((computedDays pf (datesRowP pf (datesRowI pf (refRow r)))).getD 0) = _
  rw [computedDays_stage]

/- ── Concrete fixtures ── -/

/- A parse function for fixtures whose date cells are already parsed values:
   raw text never parses. -/
def pdNone : ParseF := fun _ => none

/- A row whose invoice amount failed numeric coercion (NaN) but whose paid
   amount is 150. -/
def rC1 : Row :=
  { client := some 1
    ref := some ("2021-1".data)
    dateInvoiced := DCell.date ⟨2021,1,1⟩
    datePaid := DCell.date ⟨2021,1,10⟩
    invoiceAmount := none
    paidAmount := some 150
    days := some 9 }

/-- C1 counterexample: on a one-row table whose invoice amount is missing and
whose paid amount is 150, the cleaned table has paid_amount = 150 and
invoice_amount = 0 (the final fill rule turned the missing invoice amount into
0 after the clip rule had already run), so paid_amount ≤ invoice_amount fails. -/
theorem C1_counterexample :
    ∃ s ∈ (clean_and_validate pdNone [rC1]).1,
      s.paidAmount = some 150 ∧ s.invoiceAmount = some 0 ∧ ¬ ((150 : ℚ) ≤ (0 : ℚ)) := by
  decide

/-- C1 (amended): after the full cleaning pipeline, every row whose input
invoice amount is present and non-negative satisfies paid_amount ≤
invoice_amount (its invoice amount is carried through unchanged and its paid
amount ends up a present value bounded by it). Rows whose invoice amount was
missing keep their paid amount while the invoice amount is filled with 0, so
the inequality can fail there, as the counterexample shows. -/
theorem C1_paid_le_invoice_amended (pf : ParseF) (t : Table) (i : ℕ) (r : Row)
    (hr : t[i]? = some r) (v : ℚ) (hv : r.invoiceAmount = some v) (h0 : 0 ≤ v) :
    ∃ s : Row, (clean_and_validate pf t).1[i]? = some s ∧
      s.invoiceAmount = some v ∧ ∃ p : ℚ, s.paidAmount = some p ∧ p ≤ v := by
  refine ⟨cleanRow pf r, ?_, ?_, ?_⟩
  · rw [clean_fst, List.getElem?_map, hr]
    rfl
  · rw [cleanRow_invoiceAmount, hv]
    rfl
  · rw [cleanRow_paidAmount, hv]
    by_cases h : ogt r.paidAmount (some v)
    · exact ⟨v, by simp [h], le_refl v⟩
    · cases hp : r.paidAmount with
      | none => exact ⟨0, by simp [h, hp, ogt], h0⟩
      | some p =>
        rw [hp] at h
        refine ⟨p, by simp [h], ?_⟩
        simp only [ogt, decide_eq_true_eq] at h
        exact le_of_not_lt h

/-- C1 witness: the amended theorem applied to a concrete one-row table with
invoice amount 100 and paid amount 150: the cleaned row has invoice 100 and
some paid value at most 100. -/
theorem C1_paid_le_invoice_amended_witness :
    ∃ s : Row, (clean_and_validate pdNone [{ rC1 with invoiceAmount := some 100 }]).1[0]? = some s ∧
      s.invoiceAmount = some 100 ∧ ∃ p : ℚ, s.paidAmount = some p ∧ p ≤ 100 :=
  C1_paid_le_invoice_amended pdNone [{ rC1 with invoiceAmount := some 100 }] 0
    { rC1 with invoiceAmount := some 100 } (by rfl) 100 (by rfl) (by norm_num)

/- A row whose paid date is missing (unparseable) but whose recorded days
   value is 5. -/
def rC2 : Row :=
  { client := some 1
    ref := some ("2021-1".data)
    dateInvoiced := DCell.date ⟨2021,1,1⟩
    datePaid := DCell.na
    invoiceAmount := some 100
    paidAmount := some 50
    days := some 5 }

/-- C2 counterexample: on a one-row table whose paid date does not parse, the
fully cleaned row carries days-to-pay 0 — not the missing-value marker — since
the final fill rule replaces the recomputed missing value with 0. -/
theorem C2_counterexample :
    toDatetime pdNone rC2.datePaid = none ∧
    ∃ s ∈ (clean_and_validate pdNone [rC2]).1, s.days = some 0 ∧ s.days ≠ none := by
  decide

/-- C2 (amended): after the full cleaning pipeline, a row's days-to-pay equals
`paid_date − invoice_date` in whole days whenever both dates parse, and equals
0 — the fill rule's replacement for the missing marker — whenever either date
fails to parse. -/
theorem C2_days_to_pay_amended (pf : ParseF) (t : Table) (i : ℕ) (r : Row)
    (hr : t[i]? = some r) :
    ∃ s : Row, (clean_and_validate pf t).1[i]? = some s ∧
      (∀ dp di : Date, toDatetime pf r.datePaid = some dp →
        toDatetime pf r.dateInvoiced = some di →
        s.days = some ((toEpochDay dp - toEpochDay di : Int) : ℚ)) ∧
      ((toDatetime pf r.datePaid = none ∨ toDatetime pf r.dateInvoiced = none) →
        s.days = some 0) := by
  refine ⟨cleanRow pf r, ?_, ?_, ?_⟩
  · rw [clean_fst, List.getElem?_map, hr]
    rfl
  · intro dp di hdp hdi
    rw [cleanRow_days]
    unfold computedDays
    rw [hdp, hdi]
    rfl
  · intro hmiss
    rw [cleanRow_days]
    unfold computedDays
    rcases hmiss with h | h
    · rw [h]
      rfl
    · rw [h]
      cases toDatetime pf r.datePaid <;> rfl

/-- C2 witness: the amended theorem applied to a concrete one-row table whose
dates are 2021-01-01 and 2021-01-10, instantiated at those parsed dates. -/
theorem C2_days_to_pay_amended_witness :
    ∃ s : Row, (clean_and_validate pdNone [rC1]).1[0]? = some s ∧
      (∀ dp di : Date, toDatetime pdNone rC1.datePaid = some dp →
        toDatetime pdNone rC1.dateInvoiced = some di →
        s.days = some ((toEpochDay dp - toEpochDay di : Int) : ℚ)) ∧
      ((toDatetime pdNone rC1.datePaid = none ∨ toDatetime pdNone rC1.dateInvoiced = none) →
        s.days = some 0) :=
  C2_days_to_pay_amended pdNone [rC1] 0 rC1 (by rfl)

/- A row whose recorded days value is missing and one of whose dates does not
   parse, so the recomputed value is missing as well. -/
def rC3 : Row :=
  { client := some 1
    ref := some ("2021-1".data)
    dateInvoiced := DCell.na
    datePaid := DCell.date ⟨2021,1,10⟩
    invoiceAmount := some 100
    paidAmount := some 50
    days := none }

/-- C3 counterexample: a row whose recorded days value is missing and whose
recomputed value is also missing IS in the mismatch report of the
days-to-pay recompute rule (pandas `NaN != NaN` is true), contradicting the
claim that a both-missing row is not reported. -/
theorem C3_counterexample :
    computedDays pdNone rC3 = none ∧ rC3.days = none ∧
    rC3 ∈ (recalc_days_to_pay pdNone [rC3]).2 := by
  decide

/-- C3 (amended): the recompute rule overwrites the days column unconditionally
with the recomputed value, and its report contains exactly the rows on which
the recomputed value and the value on record are not two equal present values;
in particular a row whose recorded and recomputed values are both missing IS
reported (NaN compares unequal to NaN). -/
theorem C3_days_report_amended (pf : ParseF) (t : Table) :
    (recalc_days_to_pay pf t).1
        = t.map (fun r => { r with days := computedDays pf r }) ∧
    ∀ r : Row, r ∈ (recalc_days_to_pay pf t).2 ↔
      r ∈ t ∧ ¬ ∃ q : ℚ, computedDays pf r = some q ∧ r.days = some q := by
  constructor
  · exact recalc_fst pf t
  · intro r
    rw [recalc_snd, List.mem_filter]
    constructor
    · rintro ⟨hm, hp⟩
      refine ⟨hm, ?_⟩
      rintro ⟨q, hq1, hq2⟩
      rw [hq1, hq2] at hp
      simp [neqNaN] at hp
    · rintro ⟨hm, hne⟩
      refine ⟨hm, ?_⟩
      cases hc : computedDays pf r with
      | none => rfl
      | some q =>
        cases hd : r.days with
        | none => rfl
        | some q' =>
          simp only [neqNaN, decide_eq_true_eq]
          intro he
          exact hne ⟨q, hc, by rw [hd, he]⟩

/- ── C5: the invoice-reference rule ── -/

/- `_fix` agrees with `Option.map` of the composite transform: empty strings
   short-circuit but transform to themselves anyway. -/
lemma fixRefCell_map (o : Option Str) : fixRefCell o = o.map refTransform := by
  cases o with
  | none => rfl
  | some s => cases s <;> rfl

lemma cleanRow_ref (pf : ParseF) (r : Row) :
    (cleanRow pf r).ref = some ((fixRefCell r.ref).getD []) := by
  unfold cleanRow fillRow
  rw [clipRow_ref]
  rfl

/-- C5: the invoice-reference rule maps every reference through
uppercase / space-removal / slash-to-hyphen (missing references pass through
unchanged, via `Option.map`), its report contains exactly the rows of the
transformed table whose resulting reference fails to match `^\d{4}-\d+$`
(missing references count as non-matching), and after the full cleaning
pipeline every row's reference either matches the pattern or its transformed
row appears in the reference entry of the issue report. -/
theorem C5_invoice_reference_rule (pf : ParseF) (t : Table) (i : ℕ) (r : Row)
    (hr : t[i]? = some r) :
    (fix_invoice_reference t).1[i]? = some { r with ref := r.ref.map refTransform } ∧
    (∀ w : Row, w ∈ (fix_invoice_reference t).2 ↔
      w ∈ (fix_invoice_reference t).1 ∧ refMatchOpt w.ref = false) ∧
    ∃ s : Row, (clean_and_validate pf t).1[i]? = some s ∧
      (refMatchOpt s.ref = true ∨
        { r with ref := r.ref.map refTransform }
          ∈ (clean_and_validate pf t).2.invoice_reference_fixed) := by
  have hwork : (fix_invoice_reference t).1[i]? = some (refRow r) := by
    show (t.map refRow)[i]? = some (refRow r)
    rw [List.getElem?_map, hr]
    rfl
  have hrefRow : refRow r = { r with ref := r.ref.map refTransform } := by
    unfold refRow
    rw [fixRefCell_map]
  refine ⟨by rw [hwork, hrefRow], ?_, ?_⟩
  · intro w
    show w ∈ (t.map refRow).filter (fun w => !refMatchOpt w.ref)
        ↔ w ∈ t.map refRow ∧ refMatchOpt w.ref = false
    rw [List.mem_filter]
    simp only [Bool.not_eq_true']
  · refine ⟨cleanRow pf r, ?_, ?_⟩
    · rw [clean_fst, List.getElem?_map, hr]
      rfl
    · by_cases h : refMatchOpt (fixRefCell r.ref) = true
      · left
        rw [cleanRow_ref]
        cases hc : fixRefCell r.ref with
        | none => rw [hc] at h; exact absurd h (by simp [refMatchOpt])
        | some u => rw [hc] at h; simpa [refMatchOpt] using h
      · right
        rw [← hrefRow]
        show refRow r ∈ (t.map refRow).filter (fun w => !refMatchOpt w.ref)
        rw [List.mem_filter]
        refine ⟨List.mem_map_of_mem refRow (List.getElem?_mem hr), ?_⟩
        show (!refMatchOpt (refRow r).ref) = true
        have : (refRow r).ref = fixRefCell r.ref := rfl
        rw [this]
        simp [h]

/-- C5 witness: the rule applied to a one-row table whose reference is
"20 21/3"; the transform yields "2021-3", which matches the pattern. -/
theorem C5_invoice_reference_rule_witness :
    (fix_invoice_reference [{ rC1 with ref := some ("20 21/3".data) }]).1[0]?
        = some { { rC1 with ref := some ("20 21/3".data) } with
                  ref := (some ("20 21/3".data)).map refTransform } ∧
    (∀ w : Row, w ∈ (fix_invoice_reference [{ rC1 with ref := some ("20 21/3".data) }]).2 ↔
      w ∈ (fix_invoice_reference [{ rC1 with ref := some ("20 21/3".data) }]).1 ∧
        refMatchOpt w.ref = false) ∧
    ∃ s : Row,
      (clean_and_validate pdNone [{ rC1 with ref := some ("20 21/3".data) }]).1[0]? = some s ∧
      (refMatchOpt s.ref = true ∨
        { { rC1 with ref := some ("20 21/3".data) } with
            ref := (some ("20 21/3".data)).map refTransform }
          ∈ (clean_and_validate pdNone
              [{ rC1 with ref := some ("20 21/3".data) }]).2.invoice_reference_fixed) :=
  C5_invoice_reference_rule pdNone [{ rC1 with ref := some ("20 21/3".data) }] 0
    { rC1 with ref := some ("20 21/3".data) } (by rfl)

/- ── C6: the paid-vs-invoice clip rule ── -/

/-- C6: the clip rule sets paid_amount equal to invoice_amount exactly on the
rows where paid strictly exceeds invoice (missing values never trigger the
mask, and a triggering row necessarily lowers a present paid amount, never
raises it), leaves every other row unchanged, and its report contains exactly
the clipped rows as they were before the mutation, pre-clip paid amounts
included. -/
theorem C6_clip_rule (t : Table) (i : ℕ) (r : Row) (hr : t[i]? = some r) :
    (fix_paid_vs_invoice t).1[i]?
        = some (if ogt r.paidAmount r.invoiceAmount
                then { r with paidAmount := r.invoiceAmount } else r) ∧
    (∀ w : Row, w ∈ (fix_paid_vs_invoice t).2 ↔
      w ∈ t ∧ ogt w.paidAmount w.invoiceAmount = true) ∧
    (ogt r.paidAmount r.invoiceAmount = true →
      ∃ p v : ℚ, r.paidAmount = some p ∧ r.invoiceAmount = some v ∧ v < p) := by
  refine ⟨?_, ?_, ?_⟩
  · show (t.map clipRow)[i]? = _
    rw [List.getElem?_map, hr]
    rfl
  · intro w
    show w ∈ t.filter clipMask ↔ _
    rw [List.mem_filter]
    rfl
  · intro h
    unfold ogt at h
    cases hp : r.paidAmount with
    | none => rw [hp] at h; simp at h
    | some p =>
      cases hv : r.invoiceAmount with
      | none => rw [hp, hv] at h; simp at h
      | some v =>
        rw [hp, hv] at h
        exact ⟨p, v, rfl, rfl, by simpa using h⟩

/-- C6 witness: the clip rule applied to a one-row table with paid 150 and
invoice 100: the row is clipped, reported pre-clip, and 100 < 150. -/
theorem C6_clip_rule_witness :
    (fix_paid_vs_invoice [{ rC1 with invoiceAmount := some 100 }]).1[0]?
        = some (if ogt ({ rC1 with invoiceAmount := some 100 } : Row).paidAmount
                      ({ rC1 with invoiceAmount := some 100 } : Row).invoiceAmount
                then { { rC1 with invoiceAmount := some 100 } with
                        paidAmount := ({ rC1 with invoiceAmount := some 100 } : Row).invoiceAmount }
                else { rC1 with invoiceAmount := some 100 }) ∧
    (∀ w : Row, w ∈ (fix_paid_vs_invoice [{ rC1 with invoiceAmount := some 100 }]).2 ↔
      w ∈ [{ rC1 with invoiceAmount := some 100 }] ∧ ogt w.paidAmount w.invoiceAmount = true) ∧
    (ogt ({ rC1 with invoiceAmount := some 100 } : Row).paidAmount
         ({ rC1 with invoiceAmount := some 100 } : Row).invoiceAmount = true →
      ∃ p v : ℚ, ({ rC1 with invoiceAmount := some 100 } : Row).paidAmount = some p ∧
        ({ rC1 with invoiceAmount := some 100 } : Row).invoiceAmount = some v ∧ v < p) :=
  C6_clip_rule [{ rC1 with invoiceAmount := some 100 }] 0
    { rC1 with invoiceAmount := some 100 } (by rfl)

/- ── C4: idempotence of the pipeline on its own output ── -/

lemma some_getD_of_isSome {α : Type _} (o : Option α) (d : α) (h : o.isNone = false) :
    some (o.getD d) = o := by
  cases o with
  | none => simp at h
  | some a => rfl

lemma map_id_of {α : Type _} (f : α → α) (l : List α) (h : ∀ x ∈ l, f x = x) :
    l.map f = l := by
  induction l with
  | nil => rfl
  | cons a l ih =>
    rw [List.map_cons, h a (by simp), ih (fun x hx => h x (by simp [hx]))]

lemma filter_nil_of {α : Type _} (p : α → Bool) (l : List α) (h : ∀ x ∈ l, p x = false) :
    l.filter p = [] := by
  rw [List.filter_eq_nil_iff]
  intro a ha
  simp [h a ha]

/- Characters that can occur in a reference matching the canonical pattern
   are untouched by the transform. -/
lemma asciiUpper_fixed (c : Char) (h : isDigit c = true ∨ c = '-') : asciiUpper c = c := by
  rcases h with h | h
  · simp only [isDigit, Bool.and_eq_true, decide_eq_true_eq] at h
    unfold asciiUpper
    rw [if_neg]
    omega
  · rw [h]
    decide

lemma not_space_fixed (c : Char) (h : isDigit c = true ∨ c = '-') : (c ≠ ' ') = True := by
  simp only [ne_eq, eq_iff_iff, iff_true]
  rcases h with h | h
  · intro he
    rw [he] at h
    simp [isDigit] at h
  · rw [h]
    decide

lemma not_slash_fixed (c : Char) (h : isDigit c = true ∨ c = '-') : (c = '/') = False := by
  simp only [eq_iff_iff, iff_false]
  rcases h with h | h
  · intro he
    rw [he] at h
    simp [isDigit] at h
  · rw [h]
    decide

lemma refMatch_chars (u : Str) (h : refMatch u = true) :
    ∀ c ∈ u, isDigit c = true ∨ c = '-' := by
  unfold refMatch at h
  split at h
  case h_1 a b c d rest =>
    simp only [Bool.and_eq_true, List.all_eq_true] at h
    intro ch hch
    simp only [List.mem_cons] at hch
    rcases hch with rfl | rfl | rfl | rfl | rfl | hmem
    · exact Or.inl h.1.1.1.1.1
    · exact Or.inl h.1.1.1.1.2
    · exact Or.inl h.1.1.1.2
    · exact Or.inl h.1.1.2
    · exact Or.inr rfl
    · exact Or.inl (h.2 ch hmem)
  case h_2 =>
    exact absurd h (by simp)

/- A reference that already matches the pattern is a fixed point of the
   transform. -/
lemma refTransform_fixed (u : Str) (h : refMatch u = true) : refTransform u = u := by
  have hc := refMatch_chars u h
  unfold refTransform despace deslash upperStr
  rw [map_id_of asciiUpper u (fun c hcu => asciiUpper_fixed c (hc c hcu))]
  rw [List.filter_eq_self.mpr ?_]
  · exact map_id_of _ u (fun c hcu => by
      have := not_slash_fixed c (hc c hcu)
      simp only [this]
      rfl)
  · intro c hcu
    have := not_space_fixed c (hc c hcu)
    simp [this]

lemma refMatch_ne_nil (u : Str) (h : refMatch u = true) : u.isEmpty = false := by
  cases u with
  | nil => simp [refMatch] at h
  | cons a l => rfl

lemma fixRefCell_of_match (u : Str) (h : refMatch u = true) :
    fixRefCell (some u) = some u := by
  show (if u.isEmpty = true then some u else some (refTransform u)) = some u
  rw [refMatch_ne_nil u h]
  show some (refTransform u) = some u
  rw [refTransform_fixed u h]

lemma clipRow_client (r : Row) : (clipRow r).client = r.client := by
  unfold clipRow
  split <;> rfl

lemma clipRow_dateInvoiced (r : Row) : (clipRow r).dateInvoiced = r.dateInvoiced := by
  unfold clipRow
  split <;> rfl

lemma clipRow_datePaid (r : Row) : (clipRow r).datePaid = r.datePaid := by
  unfold clipRow
  split <;> rfl

lemma cleanRow_client (pf : ParseF) (r : Row) :
    (cleanRow pf r).client = some (r.client.getD 0) := by
  unfold cleanRow fillRow
  rw [clipRow_client]
  rfl

lemma cleanRow_dateInvoiced (pf : ParseF) (r : Row) :
    (cleanRow pf r).dateInvoiced = fillD (normCell (toDatetime pf r.dateInvoiced)) := by
  unfold cleanRow fillRow
  rw [clipRow_dateInvoiced]
  rfl

lemma cleanRow_datePaid (pf : ParseF) (r : Row) :
    (cleanRow pf r).datePaid = fillD (normCell (toDatetime pf r.datePaid)) := by
  unfold cleanRow fillRow
  rw [clipRow_datePaid]
  rfl

/- The six entries of the issue report of one pipeline run, in row-local
   form. -/
lemma clean_report_fields (pf : ParseF) (t : Table) :
    (clean_and_validate pf t).2.invoice_reference_fixed
        = (t.map refRow).filter (fun w => !refMatchOpt w.ref) ∧
    (clean_and_validate pf t).2.date_format_fixed_invoiced
        = (t.map refRow).filter (fun w => (toDatetime pf w.dateInvoiced).isNone) ∧
    (clean_and_validate pf t).2.date_format_fixed_paid
        = ((t.map refRow).filter (fun w => (toDatetime pf w.datePaid).isNone)).map (datesRowI pf) ∧
    (clean_and_validate pf t).2.days_to_pay_fixed
        = (t.map (fun r => datesRowP pf (datesRowI pf (refRow r)))).filter
            (fun w => neqNaN (computedDays pf w) w.days) ∧
    (clean_and_validate pf t).2.missing_values_filled
        = (t.map (fun r => clipRow (recalcRow pf (datesRowP pf (datesRowI pf (refRow r)))))).filter
            (fun w => w.anyNa) := by
  refine ⟨rfl, ?_, ?_, ?_, ?_⟩
  · show (fix_dates pf (t.map refRow)).2.1 = _
    rw [fix_dates_badI]
  · show (fix_dates pf (t.map refRow)).2.2 = _
    rw [fix_dates_badP]
  · show (recalc_days_to_pay pf (fix_dates pf (t.map refRow)).1).2 = _
    rw [recalc_snd, fix_dates_fst, List.map_map]
    rfl
  · show ((recalc_days_to_pay pf (fix_dates pf (t.map refRow)).1).1.map clipRow).filter _ = _
    rw [recalc_fst, fix_dates_fst, List.map_map, List.map_map, List.map_map]
    rfl

/- Shape of a row in the output of a run whose reference, date and missing
   reports are all empty: the second run fixes it and flags nothing. -/
def CleanRowGood (pf : ParseF) (s : Row) : Prop :=
  refMatchOpt s.ref = true ∧
  (∃ di : Date, s.dateInvoiced = DCell.date di) ∧
  (∃ dp : Date, s.datePaid = DCell.date dp) ∧
  computedDays pf s = s.days ∧
  clipMask s = false ∧
  s.anyNa = false

lemma refRow_fixed (s : Row) (h : refMatchOpt s.ref = true) : refRow s = s := by
  cases hs : s.ref with
  | none => rw [hs] at h; simp [refMatchOpt] at h
  | some u =>
    rw [hs] at h
    unfold refRow
    rw [hs, fixRefCell_of_match u h, ← hs]

lemma datesRowI_fixed (pf : ParseF) (s : Row) (di : Date)
    (h : s.dateInvoiced = DCell.date di) : datesRowI pf s = s := by
  unfold datesRowI
  rw [h]
  show { s with dateInvoiced := DCell.date di } = s
  rw [← h]

lemma datesRowP_fixed (pf : ParseF) (s : Row) (dp : Date)
    (h : s.datePaid = DCell.date dp) : datesRowP pf s = s := by
  unfold datesRowP
  rw [h]
  show { s with datePaid := DCell.date dp } = s
  rw [← h]

lemma recalcRow_fixed (pf : ParseF) (s : Row) (h : computedDays pf s = s.days) :
    recalcRow pf s = s := by
  unfold recalcRow
  rw [h]

lemma clipRow_fixed (s : Row) (h : clipMask s = false) : clipRow s = s := by
  unfold clipRow
  rw [h]
  rfl

lemma fillD_fixed (c : DCell) (h : c.isNa = false) : fillD c = c := by
  cases c <;> first | rfl | simp [DCell.isNa] at h

lemma fillRow_fixed (s : Row) (h : s.anyNa = false) : fillRow s = s := by
  unfold Row.anyNa at h
  simp only [Bool.or_eq_false_iff] at h
  obtain ⟨⟨⟨⟨⟨⟨h1, h2⟩, h3⟩, h4⟩, h5⟩, h6⟩, h7⟩ := h
  unfold fillRow
  rw [some_getD_of_isSome _ _ h1, some_getD_of_isSome _ _ h2,
    some_getD_of_isSome _ _ h5, some_getD_of_isSome _ _ h6,
    some_getD_of_isSome _ _ h7, fillD_fixed _ h3, fillD_fixed _ h4]

lemma cleanRow_fixed (pf : ParseF) (s : Row) (h : CleanRowGood pf s) :
    cleanRow pf s = s := by
  obtain ⟨h1, ⟨di, h2⟩, ⟨dp, h3⟩, h4, h5, h6⟩ := h
  unfold cleanRow
  rw [refRow_fixed s h1, datesRowI_fixed pf s di h2, datesRowP_fixed pf s dp h3,
    recalcRow_fixed pf s h4, clipRow_fixed s h5, fillRow_fixed s h6]

lemma cleanRow_good_of (pf : ParseF) (r : Row)
    (ha : refMatchOpt (fixRefCell r.ref) = true)
    (hb : (toDatetime pf r.dateInvoiced).isNone = false)
    (hc : (toDatetime pf r.datePaid).isNone = false)
    (hd : (clipRow (recalcRow pf (datesRowP pf (datesRowI pf (refRow r))))).anyNa = false) :
    CleanRowGood pf (cleanRow pf r) := by
  obtain ⟨di, hdi⟩ : ∃ di, toDatetime pf r.dateInvoiced = some di := by
    cases h : toDatetime pf r.dateInvoiced with
    | none => rw [h] at hb; simp at hb
    | some d => exact ⟨d, rfl⟩
  obtain ⟨dp, hdp⟩ : ∃ dp, toDatetime pf r.datePaid = some dp := by
    cases h : toDatetime pf r.datePaid with
    | none => rw [h] at hc; simp at hc
    | some d => exact ⟨d, rfl⟩
  obtain ⟨u, hu⟩ : ∃ u, fixRefCell r.ref = some u := by
    cases h : fixRefCell r.ref with
    | none => rw [h] at ha; simp [refMatchOpt] at ha
    | some u => exact ⟨u, rfl⟩
  have hmu : refMatch u = true := by rw [hu] at ha; exact ha
  -- amounts present before the fill rule ran
  have hinv4 : (clipRow (recalcRow pf (datesRowP pf (datesRowI pf (refRow r))))).invoiceAmount
      = r.invoiceAmount := by
    rw [clipRow_invoiceAmount]
    rfl
  have hpaid4 : (clipRow (recalcRow pf (datesRowP pf (datesRowI pf (refRow r))))).paidAmount
      = if ogt r.paidAmount r.invoiceAmount then r.invoiceAmount else r.paidAmount := by
    rw [clipRow_paidAmount]
    rfl
  unfold Row.anyNa at hd
  simp only [Bool.or_eq_false_iff] at hd
  obtain ⟨⟨⟨⟨⟨⟨g1, _⟩, _⟩, _⟩, g5⟩, g6⟩, _⟩ := hd
  rw [hinv4] at g5
  rw [hpaid4] at g6
  obtain ⟨v, hv⟩ : ∃ v, r.invoiceAmount = some v := by
    cases h : r.invoiceAmount with
    | none => rw [h] at g5; simp at g5
    | some v => exact ⟨v, rfl⟩
  -- field values of the cleaned row
  have f_ref : (cleanRow pf r).ref = some u := by
    rw [cleanRow_ref, hu]
    rfl
  have f_di : (cleanRow pf r).dateInvoiced = DCell.date di := by
    rw [cleanRow_dateInvoiced, hdi]
    rfl
  have f_dp : (cleanRow pf r).datePaid = DCell.date dp := by
    rw [cleanRow_datePaid, hdp]
    rfl
  have f_cd : computedDays pf r = some ((toEpochDay dp - toEpochDay di : Int) : ℚ) := by
    unfold computedDays
    rw [hdi, hdp]
  have f_days : (cleanRow pf r).days = some ((toEpochDay dp - toEpochDay di : Int) : ℚ) := by
    rw [cleanRow_days, f_cd]
    rfl
  have f_inv : (cleanRow pf r).invoiceAmount = some v := by
    rw [cleanRow_invoiceAmount, hv]
    rfl
  have f_client : (cleanRow pf r).client = some (r.client.getD 0) := cleanRow_client pf r
  have f_paid : ∃ p, (cleanRow pf r).paidAmount = some p ∧ ogt (some p) (some v) = false := by
    rw [cleanRow_paidAmount]
    by_cases h : ogt r.paidAmount r.invoiceAmount
    · refine ⟨v, ?_, ?_⟩
      · rw [if_pos h, hv]
        rfl
      · simp [ogt]
    · rw [if_neg h] at g6 ⊢
      obtain ⟨p, hp⟩ : ∃ p, r.paidAmount = some p := by
        cases hx : r.paidAmount with
        | none => rw [hx] at g6; simp at g6
        | some p => exact ⟨p, rfl⟩
      refine ⟨p, by rw [hp]; rfl, ?_⟩
      rw [hp, hv] at h
      simpa using h
  obtain ⟨p, f_p, f_nogt⟩ := f_paid
  refine ⟨?_, ⟨di, f_di⟩, ⟨dp, f_dp⟩, ?_, ?_, ?_⟩
  · rw [f_ref]
    exact hmu
  · unfold computedDays
    rw [f_di, f_dp, f_days]
    rfl
  · unfold clipMask
    rw [f_p, f_inv]
    exact f_nogt
  · unfold Row.anyNa
    rw [f_client, f_ref, f_di, f_dp, f_inv, f_p, f_days]
    rfl

/- A row whose invoice amount is missing: the first run fills it with 0 and
   leaves paid = 80, which the second run then clips. -/
def rC4 : Row :=
  { client := some 2
    ref := some ("2021-44".data)
    dateInvoiced := DCell.date ⟨2021,2,1⟩
    datePaid := DCell.date ⟨2021,2,5⟩
    invoiceAmount := none
    paidAmount := some 80
    days := some 4 }

/-- C4 counterexample: running the pipeline a second time on the output of a
first run is not the identity: on a row whose invoice amount was missing, the
first run fills invoice_amount with 0 while keeping paid_amount 80, and the
second run clips paid_amount down to 0, changing the table. -/
theorem C4_counterexample :
    (clean_and_validate pdNone (clean_and_validate pdNone [rC4]).1).1
      ≠ (clean_and_validate pdNone [rC4]).1 := by
  decide

/-- C4 (amended): if the first run's reference, date and missing-value reports
are all empty, then a second run of the full pipeline returns the first run's
table unchanged, and its reference, date and days-mismatch reports are empty.
Without that proviso the property fails: rows that keep a non-canonical
reference or an unparseable date are re-flagged by the second run, and rows
whose amounts were filled can be clipped by the second run, as the
counterexample shows. -/
theorem C4_idempotent_amended (pf : ParseF) (t : Table)
    (h1 : (clean_and_validate pf t).2.invoice_reference_fixed = [])
    (h2 : (clean_and_validate pf t).2.date_format_fixed_invoiced = [])
    (h3 : (clean_and_validate pf t).2.date_format_fixed_paid = [])
    (h4 : (clean_and_validate pf t).2.missing_values_filled = []) :
    (clean_and_validate pf (clean_and_validate pf t).1).1 = (clean_and_validate pf t).1 ∧
    (clean_and_validate pf (clean_and_validate pf t).1).2.invoice_reference_fixed = [] ∧
    (clean_and_validate pf (clean_and_validate pf t).1).2.date_format_fixed_invoiced = [] ∧
    (clean_and_validate pf (clean_and_validate pf t).1).2.date_format_fixed_paid = [] ∧
    (clean_and_validate pf (clean_and_validate pf t).1).2.days_to_pay_fixed = [] := by
  obtain ⟨e1, e2, e3, e5, e6⟩ := clean_report_fields pf t
  rw [e1, List.filter_eq_nil_iff] at h1
  rw [e2, List.filter_eq_nil_iff] at h2
  rw [e3, List.map_eq_nil_iff, List.filter_eq_nil_iff] at h3
  rw [e6, List.filter_eq_nil_iff] at h4
  have hgood : ∀ s ∈ (clean_and_validate pf t).1, CleanRowGood pf s := by
    intro s hs
    rw [clean_fst] at hs
    obtain ⟨r, hrt, rfl⟩ := List.mem_map.mp hs
    apply cleanRow_good_of
    · have := h1 (refRow r) (List.mem_map_of_mem refRow hrt)
      simpa using this
    · have := h2 (refRow r) (List.mem_map_of_mem refRow hrt)
      simp only [Bool.not_eq_true] at this
      exact this
    · have := h3 (refRow r) (List.mem_map_of_mem refRow hrt)
      simp only [Bool.not_eq_true] at this
      exact this
    · have := h4 (clipRow (recalcRow pf (datesRowP pf (datesRowI pf (refRow r)))))
        (List.mem_map_of_mem (fun r => clipRow (recalcRow pf (datesRowP pf (datesRowI pf (refRow r))))) hrt)
      simpa using this
  have hfix : ∀ s ∈ (clean_and_validate pf t).1, cleanRow pf s = s :=
    fun s hs => cleanRow_fixed pf s (hgood s hs)
  have hrefid : (clean_and_validate pf t).1.map refRow = (clean_and_validate pf t).1 :=
    map_id_of _ _ (fun s hs => refRow_fixed s (hgood s hs).1)
  obtain ⟨f1, f2, f3, f5, _⟩ := clean_report_fields pf (clean_and_validate pf t).1
  refine ⟨?_, ?_, ?_, ?_, ?_⟩
  · rw [clean_fst]
    exact map_id_of _ _ hfix
  · rw [f1, hrefid]
    apply filter_nil_of
    intro s hs
    simp [(hgood s hs).1]
  · rw [f2, hrefid]
    apply filter_nil_of
    intro s hs
    obtain ⟨di, hdi⟩ := (hgood s hs).2.1
    rw [hdi]
    rfl
  · rw [f3, hrefid]
    rw [filter_nil_of _ _ ?_]
    · rfl
    · intro s hs
      obtain ⟨dp, hdp⟩ := (hgood s hs).2.2.1
      rw [hdp]
      rfl
  · rw [f5]
    rw [map_id_of _ _ ?_]
    · apply filter_nil_of
      intro s hs
      obtain ⟨x, hx⟩ : ∃ x : ℚ, s.days = some x := by
        have h6 := (hgood s hs).2.2.2.2.2
        unfold Row.anyNa at h6
        simp only [Bool.or_eq_false_iff] at h6
        cases hy : s.days with
        | none => rw [hy] at h6; simp at h6
        | some x => exact ⟨x, rfl⟩
      rw [(hgood s hs).2.2.2.1, hx]
      simp [neqNaN]
    · intro s hs
      obtain ⟨hg1, ⟨di, hdi⟩, ⟨dp, hdp⟩, _, _, _⟩ := hgood s hs
      rw [refRow_fixed s hg1, datesRowI_fixed pf s di hdi, datesRowP_fixed pf s dp hdp]

/- A one-row table that is already fully clean. -/
def rC4w : Row :=
  { client := some 1
    ref := some ("2021-7".data)
    dateInvoiced := DCell.date ⟨2021,3,1⟩
    datePaid := DCell.date ⟨2021,3,11⟩
    invoiceAmount := some 100
    paidAmount := some 80
    days := some 10 }

/-- C4 witness: the amended theorem applied to a concrete one-row clean table;
its first run flags nothing in the reference, date and missing reports. -/
theorem C4_idempotent_amended_witness :
    (clean_and_validate pdNone (clean_and_validate pdNone [rC4w]).1).1
        = (clean_and_validate pdNone [rC4w]).1 ∧
    (clean_and_validate pdNone (clean_and_validate pdNone [rC4w]).1).2.invoice_reference_fixed = [] ∧
    (clean_and_validate pdNone (clean_and_validate pdNone [rC4w]).1).2.date_format_fixed_invoiced = [] ∧
    (clean_and_validate pdNone (clean_and_validate pdNone [rC4w]).1).2.date_format_fixed_paid = [] ∧
    (clean_and_validate pdNone (clean_and_validate pdNone [rC4w]).1).2.days_to_pay_fixed = [] :=
  C4_idempotent_amended pdNone [rC4w] (by decide) (by decide) (by decide) (by decide)

/- ══ The API layer (app.py) ══ -/

deriving instance DecidableEq for Except

/- ── Python decimal rendering and parsing of integers ── -/

def digitChar (n : ℕ) : Char :=
  match n with
  | 0 => '0' | 1 => '1' | 2 => '2' | 3 => '3' | 4 => '4'
  | 5 => '5' | 6 => '6' | 7 => '7' | 8 => '8' | 9 => '9'
  | _ => '*'

def digitVal (c : Char) : ℕ := c.toNat - 48

/- Fuel-driven digit expansion, structurally recursive in the fuel so that
   concrete values reduce inside the kernel. -/
def natReprAux : ℕ → ℕ → Str
  | 0, _ => []
  | fuel + 1, n =>
    if n < 10 then [digitChar n]
    else natReprAux fuel (n / 10) ++ [digitChar (n % 10)]

/- Python `str(n)` for a natural number. -/
def natRepr (n : ℕ) : Str := natReprAux (n + 1) n

lemma natReprAux_fuel (fuel fuel' n : ℕ) (h : n ≤ fuel) (h' : n ≤ fuel') :
    natReprAux (fuel + 1) n = natReprAux (fuel' + 1) n := by
  induction fuel using Nat.strong_induction_on generalizing fuel' n with
  | _ fuel ih =>
    by_cases hn : n < 10
    · simp only [natReprAux, if_pos hn]
    · simp only [natReprAux, if_neg hn]
      congr 1
      cases fuel with
      | zero => omega
      | succ f =>
        cases fuel' with
        | zero => omega
        | succ f' => exact ih f (by omega) f' (n / 10) (by omega) (by omega)

/- The recursion equation of `natRepr`, independent of the fuel. -/
lemma natRepr_eq (n : ℕ) :
    natRepr n = if n < 10 then [digitChar n] else natRepr (n / 10) ++ [digitChar (n % 10)] := by
  unfold natRepr
  by_cases h : n < 10
  · simp only [natReprAux, if_pos h]
  · simp only [natReprAux, if_neg h]
    congr 1
    cases n with
    | zero => omega
    | succ m =>
      exact natReprAux_fuel m ((m + 1) / 10) ((m + 1) / 10) (by omega) (by omega)

lemma digitChar_isDigit (n : ℕ) (h : n < 10) : isDigit (digitChar n) = true := by
  interval_cases n <;> decide

lemma digitVal_digitChar (n : ℕ) (h : n < 10) : digitVal (digitChar n) = n := by
  interval_cases n <;> decide

lemma natRepr_digits (n : ℕ) : ∀ c ∈ natRepr n, isDigit c = true := by
  induction n using Nat.strong_induction_on with
  | _ n ih =>
    rw [natRepr_eq]
    by_cases h : n < 10
    · rw [if_pos h]
      intro c hc
      simp only [List.mem_singleton] at hc
      subst hc
      exact digitChar_isDigit n h
    · rw [if_neg h]
      intro c hc
      rw [List.mem_append] at hc
      rcases hc with hc | hc
      · exact ih (n / 10) (Nat.div_lt_self (by omega) (by omega)) c hc
      · simp only [List.mem_singleton] at hc
        subst hc
        exact digitChar_isDigit _ (Nat.mod_lt n (by omega))

lemma natRepr_ne_nil (n : ℕ) : natRepr n ≠ [] := by
  rw [natRepr_eq]
  by_cases h : n < 10
  · rw [if_pos h]
    simp
  · rw [if_neg h]
    simp

/- Python `int(s)` on a plain string of decimal digits (no sign, no spaces);
   anything else fails. -/
def parseNat (s : Str) : Option ℕ :=
  if s.isEmpty then none
  else if s.all isDigit then some (s.foldl (fun a c => 10 * a + digitVal c) 0) else none

lemma foldl_natRepr (n : ℕ) : ∀ a : ℕ,
    (natRepr n).foldl (fun a c => 10 * a + digitVal c) a
      = a * 10 ^ (natRepr n).length + n := by
  induction n using Nat.strong_induction_on with
  | _ n ih =>
    intro a
    rw [natRepr_eq]
    by_cases h : n < 10
    · rw [if_pos h]
      show 10 * a + digitVal (digitChar n) = a * 10 ^ 1 + n
      rw [digitVal_digitChar n h]
      ring
    · rw [if_neg h]
      rw [List.foldl_append]
      rw [ih (n / 10) (Nat.div_lt_self (by omega) (by omega)) a]
      show 10 * (a * 10 ^ (natRepr (n / 10)).length + n / 10) + digitVal (digitChar (n % 10)) = _
      rw [digitVal_digitChar (n % 10) (Nat.mod_lt n (by omega))]
      rw [List.length_append, List.length_singleton, pow_succ]
      have hdm : 10 * (n / 10) + n % 10 = n := Nat.div_add_mod n 10
      calc 10 * (a * 10 ^ (natRepr (n / 10)).length + n / 10) + n % 10
          = a * (10 ^ (natRepr (n / 10)).length * 10) + (10 * (n / 10) + n % 10) := by ring
        _ = a * (10 ^ (natRepr (n / 10)).length * 10) + n := by rw [hdm]

lemma parseNat_natRepr (n : ℕ) : parseNat (natRepr n) = some n := by
  unfold parseNat
  have h0 : (natRepr n).isEmpty = false := by
    cases hn : natRepr n with
    | nil => exact absurd hn (natRepr_ne_nil n)
    | cons a l => rfl
  rw [h0]
  show (if (natRepr n).all isDigit then _ else _) = _
  rw [if_pos (List.all_eq_true.mpr (natRepr_digits n))]
  rw [foldl_natRepr n 0]
  simp

/- Python `str(i)` for an integer. -/
def intRepr (i : Int) : Str :=
  if i < 0 then '-' :: natRepr i.natAbs else natRepr i.toNat

/- Python `int(s)` on an optionally '-'-signed digit string. -/
def parseInt (s : Str) : Option Int :=
  if s.head? = some '-' then (parseNat s.tail).map (fun n => -(n : Int))
  else (parseNat s).map (fun n => (n : Int))

lemma isDigit_ne_hyphen (c : Char) (h : isDigit c = true) : c ≠ '-' := by
  intro he
  rw [he] at h
  simp [isDigit] at h

lemma parseInt_intRepr (i : Int) : parseInt (intRepr i) = some i := by
  unfold intRepr
  by_cases h : i < 0
  · rw [if_pos h]
    unfold parseInt
    rw [List.head?_cons, if_pos rfl, List.tail_cons, parseNat_natRepr]
    show some (-(i.natAbs : Int)) = some i
    congr 1
    omega
  · rw [if_neg h]
    unfold parseInt
    cases hn : natRepr i.toNat with
    | nil => exact absurd hn (natRepr_ne_nil _)
    | cons c l =>
      have hc : isDigit c = true := natRepr_digits i.toNat c (by rw [hn]; simp)
      rw [List.head?_cons, if_neg ?_, ← hn, parseNat_natRepr]
      · show some ((i.toNat : ℕ) : Int) = some i
        congr 1
        omega
      · intro he
        have : c = '-' := by injection he
        exact isDigit_ne_hyphen c hc this

/- Python `s.split("_")`. -/
def splitUnd : Str → List Str
  | [] => [[]]
  | c :: cs =>
    match splitUnd cs with
    | [] => [[]]
    | h :: t => if c = '_' then [] :: h :: t else (c :: h) :: t

lemma splitUnd_no_und (b : Str) (hb : ∀ c ∈ b, c ≠ '_') : splitUnd b = [b] := by
  induction b with
  | nil => rfl
  | cons c cs ih =>
    show (match splitUnd cs with
      | [] => [[]]
      | h :: t => if c = '_' then [] :: h :: t else (c :: h) :: t) = [c :: cs]
    rw [ih (fun x hx => hb x (by simp [hx]))]
    show (if c = '_' then [] :: cs :: [] else (c :: cs) :: []) = [c :: cs]
    rw [if_neg (hb c (by simp))]

lemma splitUnd_append (a b : Str) (ha : ∀ c ∈ a, c ≠ '_') (hb : ∀ c ∈ b, c ≠ '_') :
    splitUnd (a ++ '_' :: b) = [a, b] := by
  induction a with
  | nil =>
    show (match splitUnd b with
      | [] => [[]]
      | h :: t => if '_' = '_' then [] :: h :: t else ('_' :: h) :: t) = [[], b]
    rw [splitUnd_no_und b hb]
    show (if '_' = '_' then [] :: b :: [] else ('_' :: b) :: []) = [[], b]
    rw [if_pos rfl]
  | cons c cs ih =>
    show (match splitUnd (cs ++ '_' :: b) with
      | [] => [[]]
      | h :: t => if c = '_' then [] :: h :: t else (c :: h) :: t) = [c :: cs, b]
    rw [ih (fun x hx => ha x (by simp [hx]))]
    show (if c = '_' then [] :: cs :: [b] else (c :: cs) :: [b]) = [c :: cs, b]
    rw [if_neg (ha c (by simp))]

/- Python string comparison (lexicographic by code point), as used by
   `sorted`. -/
def strLeB : Str → Str → Bool
  | [], _ => true
  | _ :: _, [] => false
  | a :: as, b :: bs => if a < b then true else if a = b then strLeB as bs else false

/- ── The loaded table of app.py ── -/

/- One row of the cleaned CSV as loaded at startup: snake_case columns,
   dates parsed (NaT on failure), numerics possibly NaN. -/
structure AppRow where
  client_name : Option Int
  invoice_reference : Option Str
  date_invoiced : Option Date
  date_paid : Option Date
  invoice_amount : Option ℚ
  paid_amount : Option ℚ
  deriving DecidableEq, Repr

/- `df["days_to_pay"] = (df["date_paid"] - df["date_invoiced"]).dt.days`. -/
def days_to_pay (r : AppRow) : Option Int :=
  match r.date_paid, r.date_invoiced with
  | some p, some i => some (toEpochDay p - toEpochDay i)
  | _, _ => none

/- `f"company_{name}"`. -/
def companyLabel (c : Int) : Str := "company_".data ++ intRepr c

/- `companies = sorted(f"company_{name}" for name in
   df["client_name"].dropna().unique())`. -/
def companiesOf (t : List AppRow) : List Str :=
  List.insertionSort (fun a b => strLeB a b = true)
    (((t.filterMap (fun r => r.client_name)).dedup).map companyLabel)

/- The process state the API serves from: the table and the company list,
   both computed once at startup and never mutated. -/
structure AppState where
  table : List AppRow
  companies : List Str
  deriving DecidableEq, Repr

def mkState (t : List AppRow) : AppState := ⟨t, companiesOf t⟩

/- `int(company_name.split("_")[1])`. -/
def companyNumber (name : Str) : Option Int :=
  match splitUnd name with
  | _ :: num :: _ => parseInt num
  | _ => none

/- `_company_df`: 404 for an unknown name, otherwise the rows whose client
   equals the parsed company number (a failed parse would raise, modelled as
   a 500). -/
def company_df (st : AppState) (name : Str) : Except ℕ (List AppRow) :=
  if name ∈ st.companies then
    match companyNumber name with
    | some n => Except.ok (st.table.filter (fun r => r.client_name = some n))
    | none => Except.error 500
  else Except.error 404

/- `sort_values("date_invoiced")`: ascending, missing dates last. -/
def dateLeB (a b : AppRow) : Bool :=
  match a.date_invoiced, b.date_invoiced with
  | some x, some y => decide (toEpochDay x ≤ toEpochDay y)
  | some _, none => true
  | none, some _ => false
  | none, none => true

/- The record selected per invoice by the invoices endpoint. -/
structure InvoiceOut where
  invoice_reference : Option Str
  date_invoiced : Option Date
  invoice_amount : Option ℚ
  paid_amount : Option ℚ
  days_to_pay : Option Int
  deriving DecidableEq, Repr

def toInvoiceOut (r : AppRow) : InvoiceOut :=
  ⟨r.invoice_reference, r.date_invoiced, r.invoice_amount, r.paid_amount, days_to_pay r⟩

/- `GET /company/{name}/invoices`: the company's rows sorted by invoice date
   ascending, with the five listed columns. The request does not change the
   process state, returned unchanged alongside the response. -/
def invoicesEndpoint (st : AppState) (name : Str) :
    Except ℕ (List InvoiceOut) × AppState :=
  match company_df st name with
  | Except.ok cdf =>
      (Except.ok ((List.insertionSort (fun a b => dateLeB a b = true) cdf).map toInvoiceOut), st)
  | Except.error e => (Except.error e, st)

/- One line of a time-bucketed totals table. -/
structure TotalsEntry where
  label : Str
  invoice_total : ℚ
  paid_total : ℚ
  invoice_count : ℕ
  deriving DecidableEq, Repr

/- `groupby(pd.Grouper(freq)).agg(...)`: rows are bucketed by the calendar
   key of their invoice date (rows with a missing date are dropped); per
   bucket the invoice and paid amounts are summed (missing values skipped)
   and the non-missing references counted. Buckets with no rows (which the
   pandas Grouper also emits, with zero totals, for gaps inside the date
   range) are omitted; this does not affect the bucket any given invoice
   lands in, nor its label or totals. -/
def groupTotals {K : Type} [DecidableEq K] (key : Date → K) (label : K → Str)
    (cdf : List AppRow) : List TotalsEntry :=
  let dated := cdf.filterMap (fun r => r.date_invoiced.map (fun d => (key d, r)))
  ((dated.map (fun kr => kr.1)).dedup).map (fun k =>
    let grp := (dated.filter (fun kr => kr.1 = k)).map (fun kr => kr.2)
    { label := label k
      invoice_total := (grp.filterMap (fun r => r.invoice_amount)).sum
      paid_total := (grp.filterMap (fun r => r.paid_amount)).sum
      invoice_count := (grp.filterMap (fun r => r.invoice_reference)).length })

/- Zero-padded decimal of width w, as strftime emits. -/
def padNat (w : ℕ) (n : ℕ) : Str :=
  List.replicate (w - (natRepr n).length) '0' ++ natRepr n

/- `strftime("%Y-%m")` of any timestamp in the month bucket (y, m). -/
def monthLabel (k : Int × ℕ) : Str :=
  (if k.1 < 0 then '-' :: padNat 4 k.1.natAbs else padNat 4 k.1.toNat)
    ++ "-".data ++ padNat 2 k.2
/- `.dt.year.astype(str)` of the year bucket. -/
def yearLabel (y : Int) : Str := intRepr y

/- pandas `series > scalar`: false on NaN. -/
def dgtB (o : Option Int) (q : ℚ) : Bool :=
  match o with
  | some d => decide (q < (d : ℚ))
  | none => false

/- Python `round(x, 2)`, modelled as floor(100 x + 1/2) / 100 on the exact
   rational: floor((200 num + den) / (2 den)) / 100 (exact half-cent ties,
   where Python rounds half to even, are not exercised by the theorems
   below). -/
def roundTo2 (q : ℚ) : ℚ :=
  Rat.divInt (Int.fdiv (200 * q.num + (q.den : ℤ)) (2 * (q.den : ℤ))) 100

/- The metrics payload; the weekly totals, cumulative revenue, seasonality
   and the human-readable late_definition string of the response are not
   needed by any claim and are omitted from the model. -/
structure Metrics where
  average_days_to_pay : ℚ
  min_days_to_pay : Int
  max_days_to_pay : Int
  late_invoices : List (Option Str)
  monthly_totals : List TotalsEntry
  annual_totals : List TotalsEntry
  deriving DecidableEq, Repr

/- `GET /company/{name}/metrics` body: mean of the non-missing days values
   (reported rounded to 2 decimals), min/max (int() of an all-missing column
   raises, modelled as a 500), and the strict `days_to_pay > avg` late set
   computed from the unrounded mean. -/
def metricsCore (cdf : List AppRow) : Except ℕ Metrics :=
  let ds := cdf.filterMap days_to_pay
  let avg_dtp : ℚ := Rat.divInt ds.sum ds.length
  match ds.min?, ds.max? with
  | some mn, some mx =>
    Except.ok
      { average_days_to_pay := roundTo2 avg_dtp
        min_days_to_pay := mn
        max_days_to_pay := mx
        late_invoices := (cdf.filter (fun r => dgtB (days_to_pay r) avg_dtp)).map
          (fun r => r.invoice_reference)
        monthly_totals := groupTotals (fun d => (d.year, d.month)) monthLabel cdf
        annual_totals := groupTotals (fun d => d.year) yearLabel cdf }
  | _, _ => Except.error 500

def metricsEndpoint (st : AppState) (name : Str) : Except ℕ Metrics × AppState :=
  match company_df st name with
  | Except.ok cdf => (metricsCore cdf, st)
  | Except.error e => (Except.error e, st)

/- ── C9 / C10: company lookup ── -/

/- A concrete loaded table with a single client, number 1. -/
def appRow1 : AppRow :=
  { client_name := some 1
    invoice_reference := some ("2021-300".data)
    date_invoiced := some ⟨2021,3,15⟩
    date_paid := some ⟨2021,3,20⟩
    invoice_amount := some 100
    paid_amount := some 80 }

/-- C9: a company identifier that is not in the server's company list gets a
404 "not found" from both the invoices and the metrics endpoint, and either
request returns the process state (table and company list) unchanged. -/
theorem C9_unknown_company_404 (st : AppState) (name : Str)
    (h : name ∉ st.companies) :
    invoicesEndpoint st name = (Except.error 404, st) ∧
    metricsEndpoint st name = (Except.error 404, st) := by
  have hc : company_df st name = Except.error 404 := by
    unfold company_df
    rw [if_neg h]
  constructor
  · unfold invoicesEndpoint
    rw [hc]
  · unfold metricsEndpoint
    rw [hc]

/-- C9 witness: the theorem applied to a one-company state and the unknown
identifier "company_9". -/
theorem C9_unknown_company_404_witness :
    invoicesEndpoint (mkState [appRow1]) ("company_9".data)
        = (Except.error 404, mkState [appRow1]) ∧
    metricsEndpoint (mkState [appRow1]) ("company_9".data)
        = (Except.error 404, mkState [appRow1]) :=
  C9_unknown_company_404 (mkState [appRow1]) ("company_9".data) (by decide)

lemma intRepr_chars (i : Int) : ∀ c ∈ intRepr i, isDigit c = true ∨ c = '-' := by
  unfold intRepr
  by_cases h : i < 0
  · rw [if_pos h]
    intro c hc
    rcases List.mem_cons.mp hc with rfl | hc
    · exact Or.inr rfl
    · exact Or.inl (natRepr_digits _ c hc)
  · rw [if_neg h]
    intro c hc
    exact Or.inl (natRepr_digits _ c hc)

lemma intRepr_no_und (i : Int) : ∀ c ∈ intRepr i, c ≠ '_' := by
  intro c hc
  rcases intRepr_chars i c hc with h | h
  · intro he
    rw [he] at h
    simp [isDigit] at h
  · rw [h]
    decide

/- Decoding a generated company label recovers the client number:
   `int("company_<c>".split("_")[1]) = c`. -/
lemma companyNumber_label (c : Int) : companyNumber (companyLabel c) = some c := by
  unfold companyNumber companyLabel
  rw [show ("company_".data ++ intRepr c : Str) = "company".data ++ '_' :: intRepr c from rfl]
  rw [splitUnd_append ("company".data) (intRepr c) (by decide) (intRepr_no_und c)]
  show parseInt (intRepr c) = some c
  exact parseInt_intRepr c

/-- C10: with integer client identifiers (the model's client column), every
identifier in the list served by GET /companies — built as
"company_<client>" from the table's own client values — selects a non-empty
set of rows in the company lookup, so a recognized-but-empty company cannot
occur and the empty-result case coincides with the 404 case. -/
theorem C10_recognized_company_nonempty (t : List AppRow) (name : Str)
    (h : name ∈ (mkState t).companies) :
    ∃ rows : List AppRow, company_df (mkState t) name = Except.ok rows ∧ rows ≠ [] := by
  have h2 : name ∈ List.insertionSort (fun a b => strLeB a b = true)
      (((t.filterMap (fun r => r.client_name)).dedup).map companyLabel) := h
  have h' : name ∈ ((t.filterMap (fun r => r.client_name)).dedup).map companyLabel :=
    (List.perm_insertionSort _ _).mem_iff.mp h2
  obtain ⟨c, hcd, rfl⟩ := List.mem_map.mp h'
  have hcm : c ∈ t.filterMap (fun r => r.client_name) := List.mem_dedup.mp hcd
  obtain ⟨r, hrt, hrc⟩ := List.mem_filterMap.mp hcm
  refine ⟨(mkState t).table.filter (fun r => decide (r.client_name = some c)), ?_, ?_⟩
  · unfold company_df
    rw [if_pos h, companyNumber_label]
  · intro hnil
    have hmem : r ∈ (mkState t).table.filter (fun r => decide (r.client_name = some c)) :=
      List.mem_filter.mpr ⟨hrt, by rw [hrc]; simp⟩
    rw [hnil] at hmem
    exact absurd hmem (List.not_mem_nil r)

/-- C10 witness: the theorem applied to the one-row table with client 1 and
the served identifier "company_1". -/
theorem C10_recognized_company_nonempty_witness :
    ∃ rows : List AppRow,
      company_df (mkState [appRow1]) ("company_1".data) = Except.ok rows ∧ rows ≠ [] :=
  C10_recognized_company_nonempty [appRow1] ("company_1".data) (by decide)

/- ── C7: per-company mean and late set ── -/

lemma filterMap_length_of_all {α β : Type _} (f : α → Option β) (l : List α)
    (h : ∀ x ∈ l, (f x).isSome = true) : (l.filterMap f).length = l.length := by
  induction l with
  | nil => rfl
  | cons a l ih =>
    rw [List.filterMap_cons]
    cases hf : f a with
    | none =>
      have := h a (by simp)
      rw [hf] at this
      simp at this
    | some b =>
      rw [List.length_cons, ih (fun x hx => h x (by simp [hx]))]
      rfl

/- A row with three invoices whose days-to-pay are 0, 0 and 1: the mean is
   1/3, which is not representable in two decimals. -/
def cdf7 : List AppRow :=
  [ { client_name := some 1
      invoice_reference := some ("2021-1".data)
      date_invoiced := some ⟨2021,1,1⟩
      date_paid := some ⟨2021,1,1⟩
      invoice_amount := some 100
      paid_amount := some 100 }
  , { client_name := some 1
      invoice_reference := some ("2021-2".data)
      date_invoiced := some ⟨2021,1,2⟩
      date_paid := some ⟨2021,1,2⟩
      invoice_amount := some 100
      paid_amount := some 100 }
  , { client_name := some 1
      invoice_reference := some ("2021-3".data)
      date_invoiced := some ⟨2021,1,3⟩
      date_paid := some ⟨2021,1,4⟩
      invoice_amount := some 100
      paid_amount := some 100 } ]

/-- C7 counterexample: for a company whose days-to-pay values are 0, 0 and 1,
the arithmetic mean is 1/3, but the metrics computation reports
average_days_to_pay = 0.33 (the mean rounded to two decimals), which is not
equal to the mean. -/
theorem C7_counterexample :
    ∃ m : Metrics, metricsCore cdf7 = Except.ok m ∧
      (((cdf7.filterMap days_to_pay).sum : ℤ) : ℚ) / ((cdf7.length : ℕ) : ℚ) = 1/3 ∧
      m.average_days_to_pay = 33/100 ∧ ((33 : ℚ)/100 ≠ 1/3) := by
  refine ⟨_, rfl, ?_, ?_, by norm_num⟩
  · rw [show cdf7.filterMap days_to_pay = [0, 0, 1] from by decide]
    rw [show (([0, 0, 1] : List ℤ)).sum = 1 from by decide,
      show cdf7.length = 3 from rfl]
    norm_num
  · calc _ = Rat.divInt 33 100 := by decide
      _ = (33 : ℚ)/100 := by
        rw [Rat.divInt_eq_div]
        norm_num

/-- C7 (amended): for a company with at least one row, all of whose
days-to-pay values are present, the metrics computation reports
average_days_to_pay equal to the arithmetic mean of the company's days-to-pay
values rounded to two decimals (not the exact mean, as the counterexample
shows), and the late-invoice list is exactly the references of the rows whose
days-to-pay is strictly greater than the unrounded mean — a row equal to the
mean is not late. -/
theorem C7_metrics_amended (cdf : List AppRow) (hne : cdf ≠ [])
    (hall : ∀ r ∈ cdf, (days_to_pay r).isSome = true) :
    ∃ m : Metrics, metricsCore cdf = Except.ok m ∧
      m.average_days_to_pay
        = roundTo2 ((((cdf.filterMap days_to_pay).sum : ℤ) : ℚ) / ((cdf.length : ℕ) : ℚ)) ∧
      m.late_invoices
        = (cdf.filter (fun r =>
            decide ((((cdf.filterMap days_to_pay).sum : ℤ) : ℚ) / ((cdf.length : ℕ) : ℚ)
              < (((days_to_pay r).getD 0 : ℤ) : ℚ)))).map (fun r => r.invoice_reference) := by
  have hlen : (cdf.filterMap days_to_pay).length = cdf.length :=
    filterMap_length_of_all days_to_pay cdf hall
  obtain ⟨d0, ds', hds'⟩ : ∃ d0 ds', cdf.filterMap days_to_pay = d0 :: ds' := by
    cases hx : cdf.filterMap days_to_pay with
    | nil =>
      rw [hx] at hlen
      exact absurd (List.eq_nil_of_length_eq_zero hlen.symm) hne
    | cons a l => exact ⟨a, l, rfl⟩
  have havg : Rat.divInt (cdf.filterMap days_to_pay).sum ((cdf.filterMap days_to_pay).length : ℤ)
      = (((cdf.filterMap days_to_pay).sum : ℤ) : ℚ) / ((cdf.length : ℕ) : ℚ) := by
    rw [Rat.divInt_eq_div, hlen]
    norm_cast
  refine ⟨{ average_days_to_pay :=
              roundTo2 (Rat.divInt (d0 :: ds').sum ((d0 :: ds').length : ℤ))
            min_days_to_pay := ds'.foldl min d0
            max_days_to_pay := ds'.foldl max d0
            late_invoices := (cdf.filter (fun r =>
              dgtB (days_to_pay r) (Rat.divInt (d0 :: ds').sum ((d0 :: ds').length : ℤ)))).map
              (fun r => r.invoice_reference)
            monthly_totals := groupTotals (fun d => (d.year, d.month)) monthLabel cdf
            annual_totals := groupTotals (fun d => d.year) yearLabel cdf }, ?_, ?_, ?_⟩
  · simp only [metricsCore]
    rw [hds']
    rfl
  · show roundTo2 (Rat.divInt (d0 :: ds').sum ((d0 :: ds').length : ℤ)) = _
    rw [← hds', havg]
  · show ((cdf.filter (fun r =>
        dgtB (days_to_pay r) (Rat.divInt (d0 :: ds').sum ((d0 :: ds').length : ℤ)))).map
        (fun r => r.invoice_reference)) = _
    rw [← hds', havg]
    congr 1
    apply List.filter_congr
    intro r hr
    have hs := hall r hr
    cases hd : days_to_pay r with
    | none =>
      rw [hd] at hs
      simp at hs
    | some d => rfl

/- A two-row company with days-to-pay 5 and 10. -/
def cdf7w : List AppRow :=
  [ { client_name := some 2
      invoice_reference := some ("2021-10".data)
      date_invoiced := some ⟨2021,5,1⟩
      date_paid := some ⟨2021,5,6⟩
      invoice_amount := some 100
      paid_amount := some 100 }
  , { client_name := some 2
      invoice_reference := some ("2021-11".data)
      date_invoiced := some ⟨2021,5,1⟩
      date_paid := some ⟨2021,5,11⟩
      invoice_amount := some 100
      paid_amount := some 100 } ]

/-- C7 witness: the amended theorem applied to a concrete two-row company
with days-to-pay 5 and 10. -/
theorem C7_metrics_amended_witness :
    ∃ m : Metrics, metricsCore cdf7w = Except.ok m ∧
      m.average_days_to_pay
        = roundTo2 ((((cdf7w.filterMap days_to_pay).sum : ℤ) : ℚ) / ((cdf7w.length : ℕ) : ℚ)) ∧
      m.late_invoices
        = (cdf7w.filter (fun r =>
            decide ((((cdf7w.filterMap days_to_pay).sum : ℤ) : ℚ) / ((cdf7w.length : ℕ) : ℚ)
              < (((days_to_pay r).getD 0 : ℤ) : ℚ)))).map (fun r => r.invoice_reference) :=
  C7_metrics_amended cdf7w (by decide) (by decide)

/- ── C8: time-bucket labels ── -/

/-- C8: for the one-invoice company dated 2021-03-15 (the table `[appRow1]`),
the metrics computation puts the invoice in a single monthly bucket whose
label is "2021-03" and a single annual bucket whose label is "2021". -/
theorem C8_bucket_labels :
    (metricsCore [appRow1]).map (fun m => m.monthly_totals.map (fun e => e.label))
        = Except.ok ["2021-03".data] ∧
    (metricsCore [appRow1]).map (fun m => m.annual_totals.map (fun e => e.label))
        = Except.ok ["2021".data] := by
  constructor <;> decide
